import Mathlib

/-!
A shallow embedding, in Lean, of the `zpool status` parsing logic of
`zfs_zpool.py` (functions `zpool_status_parse`, `parse_si_unit`,
`parse_time_duration`, `scan_metrics` and the `zpool_status` collector),
together with theorems settling the specified properties of that logic.

Modelling conventions:
* Python exceptions are modelled with `Except String`; the error string names
  the Python exception class that would be raised.
* Python `float` values are modelled as rationals that are correctly rounded
  to IEEE-754 binary64 precision (round to nearest, ties to even) by
  `toDoubleQ`; the model covers the normal finite range of binary64, which is
  the range exercised by every input considered here.
* The three `re` patterns of `zpool_status_parse` and the `scan` sentence
  pattern are modelled by executable functions (`findBlocks`, `kvFindall`,
  `configFindall`, `scanLineMatch`) that implement the exact backtracking
  behaviour of those specific patterns under `re.MULTILINE | re.DOTALL`
  (checked against CPython `re` on the relevant input shapes).
* Character classes follow Python's ASCII behaviour; the inputs concerned are
  ASCII.
-/

set_option maxRecDepth 200000

namespace ZfsZpool


/-- Python whitespace class `\s` (ASCII part): space, tab, LF, CR, VT, FF. -/
def pyWS (c : Char) : Bool :=
  c.toNat = 32 || c.toNat = 9 || c.toNat = 10 || c.toNat = 13 ||
    c.toNat = 11 || c.toNat = 12

/-- The `[\t ]` class used between columns of a config line. -/
def isBlankCh (c : Char) : Bool := c.toNat = 32 || c.toNat = 9

/-- ASCII decimal digit (`str.isdecimal` / `\d` for the inputs concerned). -/
def isDigitCh (c : Char) : Bool := 48 ≤ c.toNat && c.toNat ≤ 57

/-- Python word class `\w` (ASCII part). -/
def wordCh (c : Char) : Bool :=
  (97 ≤ c.toNat && c.toNat ≤ 122) || (65 ≤ c.toNat && c.toNat ≤ 90) ||
    isDigitCh c || c.toNat = 95

/-- `str.strip()` on a character list. -/
def pyStripList (cs : List Char) : List Char :=
  ((cs.dropWhile pyWS).reverse.dropWhile pyWS).reverse

/-- Python `str.strip()`. -/
def pyStrip (s : String) : String := String.mk (pyStripList s.data)

/-- Value of a list of decimal digits, most significant first. -/
def digitsVal (cs : List Char) : Nat := cs.foldl (fun a c => a * 10 + (c.toNat - 48)) 0

/-- Python `int(str)`: optional sign, then decimal digits; anything else is a
`ValueError`. -/
def pyInt (s : String) : Except String Int :=
  let cs := pyStripList s.data
  if cs.head? = some '+' then
    if cs.drop 1 ≠ [] && (cs.drop 1).all isDigitCh then .ok (digitsVal (cs.drop 1))
    else .error "ValueError: invalid literal for int"
  else if cs.head? = some '-' then
    if cs.drop 1 ≠ [] && (cs.drop 1).all isDigitCh then .ok (-(digitsVal (cs.drop 1) : Int))
    else .error "ValueError: invalid literal for int"
  else
    if cs ≠ [] && cs.all isDigitCh then .ok (digitsVal cs)
    else .error "ValueError: invalid literal for int"

/-- Python `str.isdecimal()` for ASCII strings. -/
def pyIsDecimal (s : String) : Bool := s.data ≠ [] && s.data.all isDigitCh

/-- Python `str.split(sep)` for a one-character separator (also used for the
newline split of `re.MULTILINE` matching). -/
def splitOnCh (sep : Char) : List Char → List (List Char)
  | [] => [[]]
  | c :: rest =>
    match splitOnCh sep rest with
    | [] => [[c]]
    | h :: t => if c = sep then [] :: h :: t else (c :: h) :: t

/-! ### A model of CPython `float`

`float(str)` parses a decimal literal exactly and then rounds it to the
nearest IEEE-754 binary64 value (round to nearest, ties to even).  Exact
rationals are represented as unnormalized fractions `Frac` (integer
numerator, positive natural denominator), and `toDouble` performs the
binary64 rounding: find the binade, keep 53 significant bits, ties to even.
The model covers the normal finite range of binary64, which is the range
exercised by every input considered here. -/

/-- An exact (unnormalized) fraction `num / den` with `0 < den` in all uses. -/
structure Frac where
  num : Int
  den : Nat
deriving DecidableEq, Repr, Inhabited

/-- `natLog2F fuel n` is `⌊log₂ n⌋` for `0 < n ≤ 2 ^ fuel` (fuel-driven so the
kernel can reduce it on literals). -/
def natLog2F : Nat → Nat → Nat
  | 0, _ => 0
  | fuel + 1, n => if n ≤ 1 then 0 else natLog2F fuel (n / 2) + 1

/-- `⌊log₂ n⌋` for `0 < n`. -/
def natLog2 (n : Nat) : Nat := natLog2F n n

/-- Whether `2 ^ d ≤ x` for a positive fraction `x`. -/
def pow2LeFrac (d : Int) (x : Frac) : Bool :=
  if 0 ≤ d then ((2 : Int) ^ d.toNat) * (x.den : Int) ≤ x.num
  else (x.den : Int) ≤ x.num * (2 : Int) ^ (-d).toNat

/-- `⌊log₂ x⌋` for a positive fraction `x`. -/
def Frac.log2floor (x : Frac) : Int :=
  let a := x.num.toNat
  let b := x.den
  let d : Int := (natLog2 a : Int) - (natLog2 b : Int)
  if pow2LeFrac d x then d else d - 1

/-- Round a fraction to the nearest integer, ties to even (the rounding mode
of both IEEE-754 binary64 and Python's `round`). -/
def Frac.roundHalfEven (x : Frac) : Int :=
  let d : Int := (x.den : Int)
  let f := Int.fdiv x.num d
  let r := x.num - f * d
  if 2 * r < d then f else if d < 2 * r then f + 1 else if f % 2 = 0 then f else f + 1

/-- Round a positive fraction to binary64 precision: scale into the binade
`[2^52, 2^53)`, round to the nearest integer mantissa (ties to even), scale
back. -/
def toDoublePos (x : Frac) : Frac :=
  let e : Int := x.log2floor - 52
  if 0 ≤ e then
    let m := Frac.roundHalfEven ⟨x.num, x.den * 2 ^ e.toNat⟩
    ⟨m * (2 : Int) ^ e.toNat, 1⟩
  else
    let m := Frac.roundHalfEven ⟨x.num * (2 : Int) ^ (-e).toNat, x.den⟩
    ⟨m, 2 ^ (-e).toNat⟩

/-- Round a fraction to binary64 precision (normal finite range). -/
def toDouble (x : Frac) : Frac :=
  if x.num = 0 then ⟨0, 1⟩
  else if x.num < 0 then
    let p := toDoublePos ⟨-x.num, x.den⟩
    ⟨-p.num, p.den⟩
  else toDoublePos x

/-- Python `round()` with one argument on a float (ties to even). -/
def pyRound (x : Frac) : Int := x.roundHalfEven

/-- Exponent part of a float literal: empty, or `e`/`E`, optional sign,
digits.  Returns the double value of `mant * 10 ^ exponent`. -/
def parseExpPart (cs : List Char) (mant : Frac) : Except String Frac :=
  if cs = [] then .ok (toDouble mant)
  else if cs.head? = some 'e' || cs.head? = some 'E' then
    let cs1 := cs.drop 1
    let (neg, cs2) : Bool × List Char :=
      if cs1.head? = some '+' then (false, cs1.drop 1)
      else if cs1.head? = some '-' then (true, cs1.drop 1)
      else (false, cs1)
    if cs2 ≠ [] && cs2.all isDigitCh then
      let ex := digitsVal cs2
      if neg then .ok (toDouble ⟨mant.num, mant.den * 10 ^ ex⟩)
      else .ok (toDouble ⟨mant.num * (10 : Int) ^ ex, mant.den⟩)
    else .error "ValueError: could not convert string to float"
  else .error "ValueError: could not convert string to float"

/-- Mantissa part of a float literal: `digits`, `digits.digits`, `digits.` or
`.digits`, followed by an optional exponent part; the exact value of
`ip.fp` is `(ip * 10 ^ |fp| + fp) / 10 ^ |fp|`. -/
def parseFloatMag (cs : List Char) (neg : Bool) : Except String Frac :=
  let ip := cs.takeWhile isDigitCh
  let r1 := cs.drop ip.length
  let sgn : Int := if neg then -1 else 1
  if r1.head? = some '.' then
    let fp := (r1.drop 1).takeWhile isDigitCh
    let r2 := (r1.drop 1).drop fp.length
    if ip.length + fp.length = 0 then .error "ValueError: could not convert string to float"
    else
      parseExpPart r2
        ⟨sgn * ((digitsVal ip * 10 ^ fp.length + digitsVal fp : Nat) : Int), 10 ^ fp.length⟩
  else if ip = [] then .error "ValueError: could not convert string to float"
  else parseExpPart r1 ⟨sgn * (digitsVal ip : Int), 1⟩

/-- CPython `float(str)`: strip whitespace, parse a decimal literal, round it
to binary64.  (`inf`/`nan` literals are outside the model.) -/
def pyFloatOfString (s : String) : Except String Frac :=
  let cs := pyStripList s.data
  if cs.head? = some '+' then parseFloatMag (cs.drop 1) false
  else if cs.head? = some '-' then parseFloatMag (cs.drop 1) true
  else parseFloatMag cs false

/-! ### `parse_si_unit` -/

/-- The `SI_UNITS` table of the source: suffix letter to base-1024 power. -/
def SI_UNITS : List (Char × Nat) :=
  [('B', 0), ('K', 1), ('M', 2), ('G', 3), ('T', 4), ('P', 5), ('E', 6), ('Z', 7), ('Y', 8)]

/-- `parse_si_unit(value)`:
`if value.isdecimal(): return round(float(value))` and otherwise
`return round(float(value[:-1]) * (1024 ** SI_UNITS[value[-1].upper()]))`.
CPython evaluates `float(value[:-1])` before the `SI_UNITS` lookup, so a
`ValueError` from `float` precedes a `KeyError` from the lookup. -/
def parse_si_unit (value : String) : Except String Int :=
  if pyIsDecimal value then
    match pyFloatOfString value with
    | .error e => .error e
    | .ok q => .ok (pyRound q)
  else
    match pyFloatOfString (String.mk value.data.dropLast) with
    | .error e => .error e
    | .ok q =>
      match value.data.getLast? with
      | none => .error "IndexError: string index out of range"
      | some c =>
        match SI_UNITS.lookup c.toUpper with
        | none => .error "KeyError"
        | some u => .ok (pyRound (toDouble ⟨q.num * (1024 : Int) ^ u, q.den⟩))

/-! ### `parse_time_duration` -/

/-- The `TIME_UNITS` table of the source: suffix letter to `timedelta` keyword. -/
def TIME_UNITS : List (Char × String) :=
  [('s', "seconds"), ('m', "minutes"), ('h', "hours"), ('d', "days"), ('w', "weeks"),
   ('y', "years")]

/-- `datetime.timedelta(**{unit: n})` in whole seconds.  `timedelta` accepts
the keywords `weeks`, `days`, `hours`, `minutes`, `seconds` (and the
sub-second ones); `years` is not among them, so `timedelta(years=n)` raises
`TypeError`. -/
def timedeltaSeconds (unit : String) (n : Int) : Except String Int :=
  if unit = "seconds" then .ok n
  else if unit = "minutes" then .ok (60 * n)
  else if unit = "hours" then .ok (3600 * n)
  else if unit = "days" then .ok (86400 * n)
  else if unit = "weeks" then .ok (604800 * n)
  else .error "TypeError: invalid keyword argument for timedelta"

/-- The colon branch of `parse_time_duration`: positions of the reversed
`value.split(':')` are mapped through `list(TIME_UNITS.values())[p]`. -/
def clockFold : List String → Nat → Int → Except String Int
  | [], _, acc => .ok acc
  | p :: rest, idx, acc =>
    match (TIME_UNITS.map Prod.snd).get? idx with
    | none => .error "IndexError: list index out of range"
    | some unit =>
      match pyInt p with
      | .error e => .error e
      | .ok n =>
        match timedeltaSeconds unit n with
        | .error e => .error e
        | .ok secs => clockFold rest (idx + 1) (acc + secs)

/-- The character branch of `parse_time_duration`: accumulate digits into
`num`, flush on each unit letter via `TIME_UNITS[c]`; a trailing `num` with
no unit letter is discarded, an unknown letter is a `KeyError`. -/
def compactFold : List Char → Int → Int → Except String Int
  | [], _, acc => .ok acc
  | c :: rest, num, acc =>
    if isDigitCh c then compactFold rest (num * 10 + ((c.toNat : Int) - 48)) acc
    else
      match TIME_UNITS.lookup c with
      | none => .error "KeyError"
      | some unit =>
        match timedeltaSeconds unit num with
        | .error e => .error e
        | .ok secs => compactFold rest 0 (acc + secs)

/-- `parse_time_duration(value)`; the resulting `timedelta` is modelled by its
total number of seconds. -/
def parse_time_duration (value : String) : Except String Int :=
  if value.data.contains ':' then
    clockFold (((splitOnCh ':' value.data).map String.mk).reverse) 0 0
  else compactFold value.data 0 0

/-! ### `datetime.strptime(_, '%a %b %d %H:%M:%S %Y')` -/

/-- A parsed `datetime` (the fields produced by the fixed format). -/
structure PyDatetime where
  year : Nat
  month : Nat
  day : Nat
  hour : Nat
  minute : Nat
  second : Nat
deriving DecidableEq, Repr, Inhabited

def MONTH_ABBRS : List String :=
  ["jan", "feb", "mar", "apr", "may", "jun", "jul", "aug", "sep", "oct", "nov", "dec"]

def WEEKDAY_ABBRS : List String :=
  ["mon", "tue", "wed", "thu", "fri", "sat", "sun"]

def toLowerStr (s : String) : String := String.mk (s.data.map Char.toLower)

/-- A 1- or 2-digit field within inclusive bounds. -/
def fieldNat? (s : String) (lo hi : Nat) : Option Nat :=
  if s.data ≠ [] && s.data.length ≤ 2 && s.data.all isDigitCh &&
      lo ≤ digitsVal s.data && digitsVal s.data ≤ hi then
    some (digitsVal s.data)
  else none

/-- `datetime.strptime(s, '%a %b %d %H:%M:%S %Y')` (case-insensitive names,
whitespace-separated fields, `ValueError` on mismatch). -/
def strptimeModel (s : String) : Except String PyDatetime :=
  match ((splitOnCh ' ' s.data).map String.mk).filter (fun t => t ≠ "") with
  | [wd, mon, day, time, yr] =>
    let err : Except String PyDatetime := .error "ValueError: time data does not match format"
    if WEEKDAY_ABBRS.contains (toLowerStr wd) then
      match MONTH_ABBRS.findIdx? (fun m => m == toLowerStr mon) with
      | none => err
      | some mIdx =>
        match fieldNat? day 1 31 with
        | none => err
        | some d =>
          match (splitOnCh ':' time.data).map String.mk with
          | [hh, mm, ss] =>
            match fieldNat? hh 0 23, fieldNat? mm 0 59, fieldNat? ss 0 61 with
            | some h, some mi, some se =>
              if yr.data ≠ [] && yr.data.length ≤ 4 && yr.data.all isDigitCh then
                .ok ⟨digitsVal yr.data, mIdx + 1, d, h, mi, se⟩
              else err
            | _, _, _ => err
          | _ => err
    else err
  | _ => .error "ValueError: time data does not match format"

/-! ### Data model (the dataclasses of the source) -/

/-- The `ZpoolConfig` dataclass. -/
structure ZpoolConfig where
  name : String
  path : List String
  state : String
  read : Option Int := none
  write : Option Int := none
  checksum : Option Int := none
  comment : Option String := none
  is_spare : Bool := false
  indent : Nat := 0
  leading_whitespace : String := ""
deriving DecidableEq, Repr, Inhabited

/-- The `ZpoolScan` dataclass (`duration` as total seconds). -/
structure ZpoolScan where
  at_ : PyDatetime
  duration : Int
  corrected : Int
deriving DecidableEq, Repr, Inhabited

/-- The `ZpoolStatus` dataclass. -/
structure ZpoolStatus where
  name : String
  state : String
  configs : List ZpoolConfig
  scrub : Option ZpoolScan := none
  resilvering : Option ZpoolScan := none
deriving DecidableEq, Repr, Inhabited

/-! ### The block-splitting pattern

`re.findall(r'^\s*pool:\s+(?:.+(?=^\s*pool:\s+)|.+\Z)', content, re.M | re.S)`.
A match starts at a line start, skips the maximal whitespace run (which may
cross newlines), requires the literal `pool:` followed by at least one
whitespace character, and then extends greedily to the last later position at
which the lookahead `^\s*pool:\s+` holds, or to the end of the input when the
lookahead holds nowhere. -/

/-- `^` under `re.MULTILINE`: start of input or just after a newline. -/
def lineStartAt (cs : List Char) (i : Nat) : Bool :=
  i == 0 || (cs.getD (i - 1) 'x') == '\n'

/-- From position `i`: maximal `\s*` run then the literal `pool:`; returns the
position just after the colon. -/
def afterPool? (cs : List Char) (i : Nat) : Option Nat :=
  let rest := cs.drop i
  let w := (rest.takeWhile pyWS).length
  if (rest.drop w).take 5 = "pool:".data then some (i + w + 5) else none

/-- The lookahead `^\s*pool:\s+` at position `e`. -/
def poolLookahead (cs : List Char) (e : Nat) : Bool :=
  lineStartAt cs e &&
    (match afterPool? cs e with
     | some p => p < cs.length && pyWS (cs.getD p 'x')
     | none => false)

/-- End position of a block match starting at `i`, if any. -/
def blockMatchEnd? (cs : List Char) (i : Nat) : Option Nat :=
  if lineStartAt cs i then
    match afterPool? cs i with
    | some p =>
      if p + 2 ≤ cs.length && pyWS (cs.getD p 'x') then
        let cands := (List.range (cs.length + 1)).filter
          (fun e => p + 2 ≤ e && poolLookahead cs e)
        match cands.max? with
        | some e => some e
        | none => some cs.length
      else none
    | none => none
  else none

/-- Non-overlapping left-to-right scan of `re.findall` for the block pattern. -/
def findBlocksFrom (cs : List Char) : Nat → Nat → List (List Char)
  | 0, _ => []
  | fuel + 1, i =>
    if i < cs.length then
      match blockMatchEnd? cs i with
      | some e => ((cs.drop i).take (e - i)) :: findBlocksFrom cs fuel e
      | none => findBlocksFrom cs fuel (i + 1)
    else []

/-- All status blocks of the input, in order. -/
def findBlocks (cs : List Char) : List (List Char) := findBlocksFrom cs (cs.length + 1) 0

/-! ### The key/value pattern

`re.findall(r'^\s*(\w+):\s*(.+?(?=^\s*\w+:)|.*\Z)', status, re.M | re.S)`.
At a line start: maximal whitespace run, a word, a colon; then the maximal
whitespace run after the colon; the value is the lazy `.+?` up to the nearest
strictly later position where the lookahead `^\s*\w+:` holds, and when no
such position exists the `.*\Z` branch takes everything to the end of the
block (the whitespace run never backtracks, because `.*\Z` always succeeds). -/

/-- From a line start at `i`: `\s*` then `(\w+)` then `:`.  Returns the key
and the position just after the colon. -/
def kvKeyEnd? (cs : List Char) (i : Nat) : Option (List Char × Nat) :=
  let rest := cs.drop i
  let w := (rest.takeWhile pyWS).length
  let key := (rest.drop w).takeWhile wordCh
  if key ≠ [] && (rest.drop (w + key.length)).take 1 = [':'] then
    some (key, i + w + key.length + 1)
  else none

/-- The lookahead `^\s*\w+:` at position `e`. -/
def kvLookahead (cs : List Char) (e : Nat) : Bool :=
  lineStartAt cs e && (kvKeyEnd? cs e).isSome

/-- One key/value match starting at `i`: returns key, raw value, match end. -/
def kvMatchAt? (cs : List Char) (i : Nat) : Option (List Char × List Char × Nat) :=
  if lineStartAt cs i then
    match kvKeyEnd? cs i with
    | some (key, p) =>
      let km := ((cs.drop p).takeWhile pyWS).length
      let cands := (List.range (cs.length + 1)).filter
        (fun e => p + km + 1 ≤ e && kvLookahead cs e)
      match cands.min? with
      | some e1 => some (key, (cs.drop (p + km)).take (e1 - (p + km)), e1)
      | none => some (key, cs.drop (p + km), cs.length)
    | none => none
  else none

/-- Non-overlapping left-to-right scan of `re.findall` for the key/value
pattern. -/
def kvFindallFrom (cs : List Char) : Nat → Nat → List (List Char × List Char)
  | 0, _ => []
  | fuel + 1, i =>
    if i < cs.length then
      match kvMatchAt? cs i with
      | some (k, v, e) => (k, v) :: kvFindallFrom cs fuel (if i < e then e else i + 1)
      | none => kvFindallFrom cs fuel (i + 1)
    else []

/-- All key/value pairs of one block, in order. -/
def kvFindall (cs : List Char) : List (List Char × List Char) :=
  kvFindallFrom cs (cs.length + 1) 0

/-- `dict(...).get(k)` over the stripped pairs: the last pair wins. -/
def kvValue (pairs : List (List Char × List Char)) (k : String) : Option String :=
  ((pairs.filter (fun p => p.1 = k.data)).getLast?).map (fun p => pyStrip (String.mk p.2))

/-! ### The config-line pattern

`r'^([\t ]*)(\S+)(?:[\t ]+(\S+)(?:[\t ]+(\S+)[\t ]+(\S+)[\t ]+(\S+)(?:[\t ]+([^\n]+))?)?)?$'`
under `re.MULTILINE`: one anchored match per line, with groups for leading
blanks, one mandatory token, an optional second token, an optional further
token triple, and an optional trailing comment.  Lines with three or four
tokens, or with trailing blanks that no group can absorb, do not match. -/

/-- The tuple produced by one config-line match of
`re.findall` (empty string for a non-participating group). -/
structure RawLine where
  lw : String
  nameTok : String
  stateTok : String
  readTok : String
  writeTok : String
  cksumTok : String
  commentTok : String
deriving DecidableEq, Repr, Inhabited

/-- Match of the config-line pattern against one newline-free line. -/
def configLineMatch (line : List Char) : Option RawLine :=
  let lw := line.takeWhile isBlankCh
  let r0 := line.drop lw.length
  let t1 := r0.takeWhile (fun c => !pyWS c)
  let r1 := r0.drop t1.length
  if t1 = [] then none
  else if r1 = [] then some ⟨String.mk lw, String.mk t1, "", "", "", "", ""⟩
  else
    let b1 := r1.takeWhile isBlankCh
    let r1b := r1.drop b1.length
    let t2 := r1b.takeWhile (fun c => !pyWS c)
    let r2 := r1b.drop t2.length
    if b1 = [] || t2 = [] then none
    else if r2 = [] then some ⟨String.mk lw, String.mk t1, String.mk t2, "", "", "", ""⟩
    else
      let b2 := r2.takeWhile isBlankCh
      let r2b := r2.drop b2.length
      let t3 := r2b.takeWhile (fun c => !pyWS c)
      let r3 := r2b.drop t3.length
      let b3 := r3.takeWhile isBlankCh
      let r3b := r3.drop b3.length
      let t4 := r3b.takeWhile (fun c => !pyWS c)
      let r4 := r3b.drop t4.length
      let b4 := r4.takeWhile isBlankCh
      let r4b := r4.drop b4.length
      let t5 := r4b.takeWhile (fun c => !pyWS c)
      let r5 := r4b.drop t5.length
      if b2 = [] || t3 = [] || b3 = [] || t4 = [] || b4 = [] || t5 = [] then none
      else if r5 = [] then
        some ⟨String.mk lw, String.mk t1, String.mk t2, String.mk t3, String.mk t4,
          String.mk t5, ""⟩
      else
        let b5 := r5.takeWhile isBlankCh
        let rest := r5.drop b5.length
        if b5 = [] then none
        else if rest ≠ [] then
          some ⟨String.mk lw, String.mk t1, String.mk t2, String.mk t3, String.mk t4,
            String.mk t5, String.mk rest⟩
        else if 2 ≤ b5.length then
          some ⟨String.mk lw, String.mk t1, String.mk t2, String.mk t3, String.mk t4,
            String.mk t5, String.mk [b5.getLastD ' ']⟩
        else none

/-- `re.findall` of the config-line pattern over a multi-line value. -/
def configFindall (s : String) : List RawLine :=
  (splitOnCh '\n' s.data).filterMap configLineMatch

/-! ### The scan-sentence pattern

`re.match(r'(?P<activity>scrub repaired|resilvered) (?P<corrected>\S+) in
(?P<duration>\S+) with (\d+) errors on (?P<at>.+)$', ...)` with no flags:
anchored at the start, `.` does not cross newlines, and `$` matches at the
end of the string or just before one final newline. -/

/-- The named groups of a scan-sentence match. -/
structure ScanParts where
  activity : String
  corrected : String
  duration : String
  at_ : String
deriving DecidableEq, Repr, Inhabited

/-- Match of the scan-sentence pattern. -/
def scanLineMatch (s : String) : Option ScanParts :=
  let cs := s.data
  let actLen : Nat :=
    if cs.take 15 = "scrub repaired ".data then 15
    else if cs.take 11 = "resilvered ".data then 11
    else 0
  if actLen = 0 then none
  else
    let act : String := if actLen = 15 then "scrub repaired" else "resilvered"
    let r0 := cs.drop actLen
    let cor := r0.takeWhile (fun c => !pyWS c)
    let r1 := r0.drop cor.length
    if cor = [] || r1.take 4 ≠ " in ".data then none
    else
      let r2 := r1.drop 4
      let dur := r2.takeWhile (fun c => !pyWS c)
      let r3 := r2.drop dur.length
      if dur = [] || r3.take 6 ≠ " with ".data then none
      else
        let r4 := r3.drop 6
        let ers := r4.takeWhile isDigitCh
        let r5 := r4.drop ers.length
        if ers = [] || r5.take 11 ≠ " errors on ".data then none
        else
          let r6 := r5.drop 11
          let atPart := r6.takeWhile (fun c => c ≠ '\n')
          let r7 := r6.drop atPart.length
          if atPart = [] then none
          else if r7 = [] || r7 = ['\n'] then
            some ⟨act, String.mk cor, String.mk dur, String.mk atPart⟩
          else none

/-! ### The per-block config pipeline of `zpool_status_parse` -/

/-- `int(tok)` when the column participated, `None` when it did not. -/
def optInt (tok : String) : Except String (Option Int) :=
  if tok = "" then .ok none
  else
    match pyInt tok with
    | .error e => .error e
    | .ok n => .ok (some n)

/-- The first list comprehension over `configs[1:]`: build a `ZpoolConfig`
from one matched tuple (`int` conversions may raise `ValueError`). -/
def mkZpoolConfig (r : RawLine) : Except String ZpoolConfig :=
  match optInt r.readTok with
  | .error e => .error e
  | .ok rd =>
    match optInt r.writeTok with
    | .error e => .error e
    | .ok wr =>
      match optInt r.cksumTok with
      | .error e => .error e
      | .ok ck =>
        .ok { name := pyStrip r.nameTok, path := [], state := pyStrip r.stateTok,
              read := rd, write := wr, checksum := ck,
              comment := if r.commentTok = "" then none else some r.commentTok,
              is_spare := false, indent := 0, leading_whitespace := r.lw }

/-- The spare-marking `reduce`:
`acc + [replace(config, is_spare=config.name == 'spares' or
(acc[-1].is_spare if len(acc) > 0 else False))]`. -/
def spareFold (cs : List ZpoolConfig) : List ZpoolConfig :=
  cs.foldl
    (fun acc c =>
      acc ++ [{ c with is_spare :=
        (c.name == "spares") || ((acc.getLast?.map (fun p => p.is_spare)).getD false) }])
    []

/-- `replace(config, indent=int(len(config.leading_whitespace) / 2))`. -/
def indentMap (cs : List ZpoolConfig) : List ZpoolConfig :=
  cs.map (fun c => { c with indent := c.leading_whitespace.data.length / 2 })

/-- Name normalization:
`replace(config, name=config.comment[4:].split('/')[-1] if
str(config.comment).startswith('was ') else config.name)`. -/
def renameMap (cs : List ZpoolConfig) : List ZpoolConfig :=
  cs.map (fun c =>
    { c with name :=
        match c.comment with
        | some m =>
          if m.data.take 4 = "was ".data then
            String.mk ((splitOnCh '/' (m.data.drop 4)).getLastD [])
          else c.name
        | none => c.name })

/-- Python list slice `l[0:k]` for an `int` bound `k` (a negative bound drops
`-k` elements from the end). -/
def pySliceTo (l : List String) (k : Int) : List String :=
  if 0 ≤ k then l.take k.toNat else l.take (l.length - (-k).toNat)

/-- The path-building `reduce`:
`acc + [replace(config, path=[*(acc[-1].path[0:config.indent - offset] if
len(acc) > 0 else []), config.name])]` (for an empty `acc` the slice of the
empty list is also empty, so the two cases coincide on `[]`). -/
def pathFold (offset : Int) (cs : List ZpoolConfig) : List ZpoolConfig :=
  cs.foldl
    (fun acc c =>
      let prev := (acc.getLast?.map (fun p => p.path)).getD []
      acc ++ [{ c with path := pySliceTo prev ((c.indent : Int) - offset) ++ [c.name] }])
    []

/-- The final comprehension: drop nodes now named `spares`, reset `indent`
and `leading_whitespace`. -/
def finalMap (cs : List ZpoolConfig) : List ZpoolConfig :=
  (cs.filter (fun c => c.name ≠ "spares")).map
    (fun c => { c with indent := 0, leading_whitespace := "" })

/-- Lines `210..242` of the source: everything from the construction of the
`ZpoolConfig` list (over `configs[1:]`) to the final filtered list, including
the unguarded `offset = configs[0].indent`, which raises `IndexError` when
only the header line matched. -/
def buildConfigs (lines : List RawLine) : Except String (List ZpoolConfig) :=
  match (lines.drop 1).mapM mkZpoolConfig with
  | .error e => .error e
  | .ok cs0 =>
    match (renameMap (indentMap (spareFold cs0))).head? with
    | none => .error "IndexError: list index out of range"
    | some c0 =>
      .ok (finalMap (pathFold (c0.indent : Int) (renameMap (indentMap (spareFold cs0)))))

/-- The scan-sentence stage: on a match, build the `ZpoolScan` (each of
`strptime`, `parse_time_duration`, `parse_si_unit` may raise) and attribute
it to `scrub` or `resilvering` by the activity phrase. -/
def scanStage (scanVal : String) : Except String (Option ZpoolScan × Option ZpoolScan) :=
  match scanLineMatch scanVal with
  | none => .ok (none, none)
  | some m =>
    match strptimeModel m.at_ with
    | .error e => .error e
    | .ok at_ =>
      match parse_time_duration m.duration with
      | .error e => .error e
      | .ok dur =>
        match parse_si_unit m.corrected with
        | .error e => .error e
        | .ok cor =>
          let info : ZpoolScan := ⟨at_, dur, cor⟩
          if m.activity = "scrub repaired" then .ok (some info, none)
          else if m.activity = "resilvered" then .ok (none, some info)
          else .ok (none, none)

/-- One iteration of the `for status in re.findall(...)` loop: `.ok none`
models `continue` (no config line matched), `.error` models an uncaught
exception. -/
def processBlock (block : String) : Except String (Option ZpoolStatus) :=
  let pairs := kvFindall block.data
  let lines := configFindall ((kvValue pairs "config").getD "")
  if lines.isEmpty then .ok none
  else
    match buildConfigs lines with
    | .error e => .error e
    | .ok configs =>
      match scanStage ((kvValue pairs "scan").getD "") with
      | .error e => .error e
      | .ok (scrub, resilvering) =>
        .ok (some { name := (kvValue pairs "pool").getD "",
                    state := (kvValue pairs "state").getD "",
                    configs := configs, scrub := scrub, resilvering := resilvering })

/-- The whole loop: an exception in any block aborts the call; otherwise the
non-skipped statuses are returned in order. -/
def statusesFromBlocks : List String → Except String (List ZpoolStatus)
  | [] => .ok []
  | b :: rest =>
    match processBlock b with
    | .error e => .error e
    | .ok none => statusesFromBlocks rest
    | .ok (some st) =>
      match statusesFromBlocks rest with
      | .error e => .error e
      | .ok sts => .ok (st :: sts)

/-- `zpool_status_parse(content)`. -/
def zpool_status_parse (content : String) : Except String (List ZpoolStatus) :=
  statusesFromBlocks ((findBlocks content.data).map String.mk)

/-! ### The `zpool_status` collector and the `scan_metrics` call sites

`scan_metrics` is declared with five parameters
(`activity, metrics, registry, status, scan`) and no defaults, but
`zpool_status` invokes it as `scan_metrics('scrub', metrics, registry,
status.scrub)` — four arguments — so CPython raises `TypeError` at the call,
before the function body (which would create and set the three gauges) runs.
The model tracks which metric families of the `metrics` dict are touched. -/

/-- Number of parameters in the `def scan_metrics(...)` signature. -/
def scanMetricsParamCount : Nat := 5

/-- Number of arguments at the `scan_metrics(...)` call sites in
`zpool_status`. -/
def scanMetricsCallArgCount : Nat := 4

/-- The gauge families the body of `scan_metrics` would create. -/
def scanMetricsBody (activity : String) (_scan : ZpoolScan) : List String :=
  [activity ++ "_duration", activity ++ "_corrected", activity ++ "_time"]

/-- CPython call semantics for a function with only required positional
parameters: the body runs only when the argument count matches. -/
def pyCall (required provided : Nat) (body : List String) : Except String (List String) :=
  if provided = required then .ok body
  else .error "TypeError: scan_metrics() missing 1 required positional argument"

/-- The two guarded `scan_metrics` invocations for one status. -/
def emitScan (st : ZpoolStatus) : Except String (List String) :=
  match (match st.scrub with
         | some sc => pyCall scanMetricsParamCount scanMetricsCallArgCount
             (scanMetricsBody "scrub" sc)
         | none => .ok []) with
  | .error e => .error e
  | .ok g1 =>
    match (match st.resilvering with
           | some sc => pyCall scanMetricsParamCount scanMetricsCallArgCount
               (scanMetricsBody "resilvering" sc)
           | none => .ok []) with
    | .error e => .error e
    | .ok g2 => .ok (g1 ++ g2)

/-- The body of the `for status in zpool_status_parse(...)` loop of
`zpool_status`: the metric families touched, in order, and the uncaught
exception (if any) that ends the loop. -/
def zpoolStatusEmit : List ZpoolStatus → List String × Option String
  | [] => ([], none)
  | st :: rest =>
    match emitScan st with
    | .error e => (["status"], some e)
    | .ok gs =>
      let t := zpoolStatusEmit rest
      ("status" :: gs ++ st.configs.map (fun _ => "vdev_info") ++ t.1, t.2)

/-- `zpool_status(registry)` restricted to its observable metric families. -/
def zpool_status (content : String) : Except String (List String × Option String) :=
  match zpool_status_parse content with
  | .error e => .error e
  | .ok sts => .ok (zpoolStatusEmit sts)

/-! ### Recursive presentations of the two `reduce` folds

The source builds the spare flags and the paths with `reduce`-style folds
that append to an accumulator and read `acc[-1]`.  For the proofs we use
equivalent forward recursions that carry the last flag / the last path. -/

/-- Forward recursion equivalent of `spareFold`, carrying the running flag. -/
def spareRec (flag : Bool) : List ZpoolConfig → List ZpoolConfig
  | [] => []
  | c :: rest =>
    let f := (c.name == "spares") || flag
    { c with is_spare := f } :: spareRec f rest

/-- Forward recursion equivalent of `pathFold`, carrying the last path. -/
def pathRec (offset : Int) (prev : List String) : List ZpoolConfig → List ZpoolConfig
  | [] => []
  | c :: rest =>
    let p := pySliceTo prev ((c.indent : Int) - offset) ++ [c.name]
    { c with path := p } :: pathRec offset p rest

/-- Well-formed indentation relative to offset `offset`, starting from a
previous indent `pI`: every node sits at depth at least `offset` and climbs
at most one unit past its predecessor. -/
def indentOkB (offset : Int) : Int → List ZpoolConfig → Bool
  | _, [] => true
  | pI, c :: rest =>
    decide (offset ≤ (c.indent : Int)) && decide ((c.indent : Int) ≤ pI + 1) &&
      indentOkB offset c.indent rest

/-! ### Concrete fixtures -/

/-- Two status blocks; the first block's config section consists of exactly
the column-header line and no device lines, the second block is valid. -/
def c1Input : String :=
  "pool: tank\n state: ONLINE\n config:\n\tNAME STATE READ WRITE CKSUM\npool: tank2\n state: ONLINE\n config:\n\tNAME STATE READ WRITE CKSUM\n\ttank2 ONLINE 0 0 0\n"

/-- Two status blocks; the first block is valid except that the corrected
token of its scan line, `1X`, has an unrecognized SI suffix; the second block
is valid. -/
def c2Input : String :=
  "pool: tank\n state: ONLINE\n scan: scrub repaired 1X in 0:10:00 with 0 errors on Sun Mar 12 13:39:12 2023\n config:\n\tNAME STATE READ WRITE CKSUM\n\ttank ONLINE 0 0 0\npool: tank2\n state: ONLINE\n config:\n\tNAME STATE READ WRITE CKSUM\n\ttank2 ONLINE 0 0 0\n"

/-- One status block whose second device line is indented three units while
its predecessor (the root) sits at unit zero. -/
def c3Input : String :=
  "pool: tank\n state: ONLINE\n config:\n\tNAME STATE READ WRITE CKSUM\n\ttank ONLINE 0 0 0\n\t      sda ONLINE 0 0 0\n"

/-- The config value extracted from the single block of `c1Input`-style
parsing of `c3Input`. -/
def c3Config : String :=
  "NAME STATE READ WRITE CKSUM\n\ttank ONLINE 0 0 0\n\t      sda ONLINE 0 0 0"

/-- One status block whose device list contains a line literally named
`spares` that carries a `was /x/y` comment. -/
def c4Input : String :=
  "pool: tank\n state: ONLINE\n config:\n\tNAME STATE READ WRITE CKSUM\n\ttank ONLINE 0 0 0\n\t  spares ONLINE 0 0 0 was /x/y\n\t    sda ONLINE 0 0 0\n"

/-- The config value extracted from the single block of `c4Input`. -/
def c4Config : String :=
  "NAME STATE READ WRITE CKSUM\n\ttank ONLINE 0 0 0\n\t  spares ONLINE 0 0 0 was /x/y\n\t    sda ONLINE 0 0 0"

/-- Extract the `.ok` payload of a config-list computation. -/
def okConfigs (e : Except String (List ZpoolConfig)) : List ZpoolConfig :=
  match e with
  | .ok l => l
  | .error _ => []

/-- The first block of `c2Input` on its own. -/
def c2BadBlock : String :=
  "pool: tank\n state: ONLINE\n scan: scrub repaired 1X in 0:10:00 with 0 errors on Sun Mar 12 13:39:12 2023\n config:\n\tNAME STATE READ WRITE CKSUM\n\ttank ONLINE 0 0 0\n"

def w3c0 : ZpoolConfig := { name := "tank", path := [], state := "ONLINE", indent := 0 }
def w3c1 : ZpoolConfig := { name := "mirror-0", path := [], state := "ONLINE", indent := 1 }
def w3c2 : ZpoolConfig := { name := "sda", path := [], state := "ONLINE", indent := 2 }

def w4cs : List ZpoolConfig :=
  [{ name := "tank", path := [], state := "ONLINE" },
   { name := "spares", path := [], state := "" },
   { name := "sdb", path := [], state := "AVAIL" }]

def c9Lines : List RawLine :=
  [⟨"", "NAME", "STATE", "READ", "WRITE", "CKSUM", ""⟩,
   ⟨"\t", "tank", "ONLINE", "0", "0", "0", ""⟩,
   ⟨"\t  ", "sda", "ONLINE", "0", "0", "0", "was /dev/disk/by-path/foo-part1"⟩]

def w10st : ZpoolStatus :=
  ⟨"tank", "ONLINE", [], some ⟨⟨2023, 3, 12, 13, 39, 12⟩, 25076, 0⟩, none⟩

theorem spareFold_go (cs acc : List ZpoolConfig) :
    List.foldl
      (fun acc c =>
        acc ++ [{ c with is_spare :=
          (c.name == "spares") || ((acc.getLast?.map (fun p => p.is_spare)).getD false) }])
      acc cs
      = acc ++ spareRec ((acc.getLast?.map (fun p => p.is_spare)).getD false) cs := by
  induction cs generalizing acc with
  | nil => simp [spareRec]
  | cons c rest ih =>
    rw [List.foldl_cons, ih]
    simp [spareRec, List.getLast?_concat]

theorem spareFold_eq (cs : List ZpoolConfig) : spareFold cs = spareRec false cs := by
  simpa using spareFold_go cs []

theorem pathFold_go (offset : Int) (cs acc : List ZpoolConfig) :
    List.foldl
      (fun acc c =>
        let prev := (acc.getLast?.map (fun p => p.path)).getD []
        acc ++ [{ c with path := pySliceTo prev ((c.indent : Int) - offset) ++ [c.name] }])
      acc cs
      = acc ++ pathRec offset ((acc.getLast?.map (fun p => p.path)).getD []) cs := by
  induction cs generalizing acc with
  | nil => simp [pathRec]
  | cons c rest ih =>
    rw [List.foldl_cons, ih]
    simp [pathRec, List.getLast?_concat]

theorem pathFold_eq (offset : Int) (cs : List ZpoolConfig) :
    pathFold offset cs = pathRec offset [] cs := by
  simpa using pathFold_go offset cs []

/-! ### Lemmas about the pipeline stages -/

theorem spareRec_length (flag : Bool) (cs : List ZpoolConfig) :
    (spareRec flag cs).length = cs.length := by
  induction cs generalizing flag with
  | nil => rfl
  | cons c rest ih => simp [spareRec, ih]

/-- The flag written by `spareRec` at index `i`: the initial flag, or some
node among the first `i + 1` is literally named `spares`. -/
theorem spareRec_getD_is_spare (cs : List ZpoolConfig) :
    ∀ (flag : Bool) (i : Nat), i < (spareRec flag cs).length →
      ((spareRec flag cs).getD i default).is_spare
        = (flag || (cs.take (i + 1)).any (fun c => c.name == "spares")) := by
  induction cs with
  | nil => intro flag i hi; simp [spareRec] at hi
  | cons c rest ih =>
    intro flag i hi
    cases i with
    | zero => simp [spareRec, Bool.or_comm]
    | succ j =>
      have hj : j < (spareRec ((c.name == "spares") || flag) rest).length := by
        simpa [spareRec] using hi
      have := ih ((c.name == "spares") || flag) j hj
      simp only [spareRec, List.getD_cons_succ, List.take_succ_cons, List.any_cons] at this ⊢
      rw [this]
      cases flag <;> cases hc : (c.name == "spares") <;>
        simp [Bool.or_assoc, Bool.or_comm, Bool.or_left_comm]

/-- Membership in `pathRec` only rewrites the `path` field. -/
theorem pathRec_mem (offset : Int) (cs : List ZpoolConfig) :
    ∀ (prev : List String) (c : ZpoolConfig), c ∈ pathRec offset prev cs →
      ∃ c' ∈ cs, c.name = c'.name ∧ c.comment = c'.comment ∧ c.indent = c'.indent ∧
        c.is_spare = c'.is_spare := by
  induction cs with
  | nil => intro prev c h; simp [pathRec] at h
  | cons c0 rest ih =>
    intro prev c h
    simp only [pathRec, List.mem_cons] at h
    rcases h with h | h
    · exact ⟨c0, List.mem_cons_self c0 rest, by simp [h]⟩
    · rcases ih _ c h with ⟨c', hc', hprops⟩
      exact ⟨c', List.mem_cons_of_mem c0 hc', hprops⟩

/-- Membership in `finalMap`: survivors are exactly the members not named
`spares`, with `indent` and `leading_whitespace` reset. -/
theorem finalMap_mem (cs : List ZpoolConfig) (c : ZpoolConfig) (h : c ∈ finalMap cs) :
    ∃ c' ∈ cs, c'.name ≠ "spares" ∧
      c = { c' with indent := 0, leading_whitespace := "" } := by
  simp only [finalMap, List.mem_map, List.mem_filter] at h
  rcases h with ⟨c', ⟨hmem, hname⟩, rfl⟩
  exact ⟨c', hmem, by simpa using hname, rfl⟩

/-- Membership in `renameMap`: every member whose comment is a `was `-comment
carries the final slash segment of that comment's path as its name. -/
theorem renameMap_mem_name (cs : List ZpoolConfig) (c : ZpoolConfig) (m : String)
    (h : c ∈ renameMap cs) (hcm : c.comment = some m)
    (hwas : m.data.take 4 = "was ".data) :
    c.name = String.mk ((splitOnCh '/' (m.data.drop 4)).getLastD []) := by
  simp only [renameMap, List.mem_map] at h
  rcases h with ⟨c', _, rfl⟩
  simp only at hcm
  rw [hcm]
  simp [hwas]

theorem pySliceTo_length (l : List String) (k : Int) (h0 : 0 ≤ k) (h1 : k ≤ l.length) :
    ((pySliceTo l k).length : Int) = k := by
  rw [pySliceTo, if_pos h0, List.length_take]
  omega

/-- The invariant of the path recursion: if the previous path length is one
more than the previous depth (relative to the offset), then every produced
node's path length is one more than its own relative depth. -/
theorem pathRec_path_length (offset : Int) :
    ∀ (cs : List ZpoolConfig) (prev : List String) (pI : Int),
      (prev.length : Int) = pI - offset + 1 →
      indentOkB offset pI cs = true →
      ∀ c ∈ pathRec offset prev cs, (c.path.length : Int) = (c.indent : Int) - offset + 1 := by
  intro cs
  induction cs with
  | nil => intro prev pI _ _ c hc; simp [pathRec] at hc
  | cons c0 rest ih =>
    intro prev pI hlen hok c hc
    simp only [indentOkB, Bool.and_eq_true, decide_eq_true_eq] at hok
    obtain ⟨⟨hoff, hstep⟩, hok'⟩ := hok
    have hslice : ((pySliceTo prev ((c0.indent : Int) - offset)).length : Int)
        = (c0.indent : Int) - offset :=
      pySliceTo_length prev _ (by omega) (by omega)
    simp only [pathRec, List.mem_cons] at hc
    rcases hc with rfl | hc
    · simp only [List.length_append, List.length_cons, List.length_nil]
      push_cast
      omega
    · refine ih (pySliceTo prev ((c0.indent : Int) - offset) ++ [c0.name]) (c0.indent : Int)
        ?_ hok' c hc
      simp only [List.length_append, List.length_cons, List.length_nil]
      push_cast
      omega

/-! ### Claim theorems: concrete counterexamples and fully concrete claims -/

/-- Claim C1, counterexample.  The claim states that a status block whose
config section is exactly the column-header line and zero device lines is
silently suppressed — no exception, and the other blocks' `PoolStatus`
records are still returned.  On `c1Input` (such a block followed by a valid
block) `zpool_status_parse` instead raises `IndexError` (the unguarded
`configs[0].indent` after `configs[1:]` left nothing), so nothing at all is
returned — even though the second block on its own parses to a
`PoolStatus` named `tank2`, as the second conjunct shows. -/
theorem c1_counterexample :
    zpool_status_parse c1Input = Except.error "IndexError: list index out of range" ∧
    (processBlock (((findBlocks c1Input.data).map String.mk).getLastD "")).map
        (Option.map (fun st => st.name)) = Except.ok (some "tank2") ∧
    (findBlocks c1Input.data).length = 2 := by
  exact ⟨rfl, rfl, rfl⟩

/-- Claim C2, counterexample.  The claim states that an SI-unit/duration
parse error in one block's scan line is treated like a non-matching scan line
for that block only, every later block still yielding its `PoolStatus`.  On
`c2Input` the first block's corrected token `1X` makes `parse_si_unit` raise
`KeyError`, which propagates out of `zpool_status_parse`: the call returns an
error and the second block's `PoolStatus` (which parses fine on its own, as
the second conjunct shows) is not returned. -/
theorem c2_counterexample :
    zpool_status_parse c2Input = Except.error "KeyError" ∧
    (processBlock (((findBlocks c2Input.data).map String.mk).getLastD "")).map
        (Option.map (fun st => st.name)) = Except.ok (some "tank2") ∧
    (findBlocks c2Input.data).length = 2 := by
  exact ⟨rfl, rfl, rfl⟩

/-- Claim C3, counterexample.  In `c3Input` the root line sits at indent
unit `0` and the `sda` line at indent unit `3` (third conjunct), so the claim
demands a path of length `3 - 0 + 1 = 4` for `sda`; the parser instead
produces the path `["tank", "sda"]` of length `2` (first conjunct), because
the slice `acc[-1].path[0:3]` of the one-element root path is just that
one-element path. -/
theorem c3_counterexample :
    (zpool_status_parse c3Input).map
        (fun l => l.map (fun st => st.configs.map (fun c => (c.name, c.path)))) =
      Except.ok [[("tank", ["tank"]), ("sda", ["tank", "sda"])]] ∧
    kvValue (kvFindall (((findBlocks c3Input.data).map String.mk).headD "").data) "config" =
      some c3Config ∧
    (configFindall c3Config).map (fun r => r.lw.length / 2) = [0, 0, 3] ∧
    ((["tank", "sda"] : List String).length : Int) ≠ (3 : Int) - 0 + 1 := by
  refine ⟨rfl, rfl, rfl, by decide⟩

/-- Claim C4, counterexample.  The claim states that the `spares` marker node
itself is always removed from the final device list.  In `c4Input` the line
literally named `spares` (second and third conjuncts) carries the comment
`was /x/y`, so name normalization renames it to `y` before the
`config.name != 'spares'` filter runs: the marker node survives in the final
list (renamed `y`, flagged as spare), as the first conjunct shows. -/
theorem c4_counterexample :
    (zpool_status_parse c4Input).map
        (fun l => l.map (fun st => st.configs.map (fun c => (c.name, c.is_spare)))) =
      Except.ok [[("tank", false), ("y", true), ("sda", true)]] ∧
    (configFindall c4Config).map (fun r => r.nameTok) = ["NAME", "tank", "spares", "sda"] ∧
    (configFindall c4Config).map (fun r => r.commentTok) = ["", "", "was /x/y", ""] ∧
    kvValue (kvFindall (((findBlocks c4Input.data).map String.mk).headD "").data) "config" =
      some c4Config := by
  exact ⟨rfl, rfl, rfl, rfl⟩

/-- Claim C1 (amended).  A config section whose regex match list has exactly
one line (the column-header line, dropped positionally) leaves zero device
lines, and the per-block pipeline then raises `IndexError` at the unguarded
`offset = configs[0].indent`; the exception propagates, so the whole
`zpool_status_parse` call aborts and no block's `PoolStatus` is returned
(see `c1_counterexample` for the end-to-end behaviour). -/
theorem c1_single_line_config_raises (lines : List RawLine) (h : lines.length = 1) :
    buildConfigs lines = Except.error "IndexError: list index out of range" := by
  rcases lines with _ | ⟨a, _ | ⟨b, t⟩⟩
  · simp at h
  · rfl
  · simp at h

/-- Witness for `c1_single_line_config_raises` at a concrete header line. -/
theorem c1_single_line_config_raises_w :
    buildConfigs [⟨"", "NAME", "STATE", "READ", "WRITE", "CKSUM", ""⟩]
      = Except.error "IndexError: list index out of range" :=
  c1_single_line_config_raises [⟨"", "NAME", "STATE", "READ", "WRITE", "CKSUM", ""⟩] rfl

/-- Claim C2 (amended).  An uncaught exception while processing any block
(such as the `KeyError` from an unrecognized SI suffix in the scan line)
aborts the entire `zpool_status_parse` call: no status of any block is
returned (see `c2_counterexample` for the end-to-end behaviour). -/
theorem c2_block_error_aborts_call (blocks : List String) (b : String) (e : String)
    (hb : b ∈ blocks) (he : processBlock b = Except.error e) :
    ∃ msg, statusesFromBlocks blocks = Except.error msg := by
  induction blocks with
  | nil => cases hb
  | cons hd tl ih =>
    rcases List.mem_cons.mp hb with rfl | hmem
    · exact ⟨e, by simp [statusesFromBlocks, he]⟩
    · cases hph : processBlock hd with
      | error e1 => exact ⟨e1, by simp [statusesFromBlocks, hph]⟩
      | ok r =>
        obtain ⟨msg, hmsg⟩ := ih hmem
        cases r with
        | none => exact ⟨msg, by simp [statusesFromBlocks, hph, hmsg]⟩
        | some st => exact ⟨msg, by simp [statusesFromBlocks, hph, hmsg]⟩

/-- Witness for `c2_block_error_aborts_call` at the concrete bad block. -/
theorem c2_block_error_aborts_call_w :
    ∃ msg, statusesFromBlocks [c2BadBlock] = Except.error msg :=
  c2_block_error_aborts_call [c2BadBlock] c2BadBlock "KeyError"
    (List.mem_singleton.mpr rfl) (by rfl)

/-- Claim C3 (amended).  For a well-formed config section — every device
line at depth at least the root's, climbing at most one indent unit past its
predecessor (`indentOkB`) — every node produced by the path-building fold
has `path` length equal to its depth minus the root's depth plus one; in
particular the root's path has length one.  Without the well-formedness
hypothesis the claim fails: see `c3_counterexample`. -/
theorem c3_path_length_wellformed (c0 : ZpoolConfig) (rest : List ZpoolConfig)
    (h : indentOkB (c0.indent : Int) (c0.indent : Int) rest = true) :
    ∀ c ∈ pathFold (c0.indent : Int) (c0 :: rest),
      (c.path.length : Int) = (c.indent : Int) - (c0.indent : Int) + 1 := by
  rw [pathFold_eq]
  refine pathRec_path_length _ (c0 :: rest) [] ((c0.indent : Int) - 1) (by simp) ?_
  simp only [indentOkB, Bool.and_eq_true, decide_eq_true_eq]
  exact ⟨⟨le_refl _, by omega⟩, h⟩

/-- Witness for `c3_path_length_wellformed` on a three-level device tree. -/
theorem c3_path_length_wellformed_w :
    ((((pathFold (w3c0.indent : Int) [w3c0, w3c1, w3c2]).getLastD default).path.length : Int))
      = (((pathFold (w3c0.indent : Int) [w3c0, w3c1, w3c2]).getLastD default).indent : Int)
        - (w3c0.indent : Int) + 1 :=
  c3_path_length_wellformed w3c0 [w3c1, w3c2] (by decide)
    ((pathFold (w3c0.indent : Int) [w3c0, w3c1, w3c2]).getLastD default) (by decide)

/-- Claim C4 (amended).  First part: the spare-marking fold sets `is_spare`
on a node exactly when some node at its position or earlier in the same
block is literally named `spares` — so the flag is `false` strictly before
the first `spares` marker and `true` from the marker on.  Second part: the
final filter removes nodes by their current — i.e. `was `-normalized — name,
so no returned node is named `spares`; but the marker node itself survives
(under its recovered name, still flagged) when its comment renames it, as
`c4_counterexample` shows, so "the marker node itself is removed" does not
hold unconditionally. -/
theorem c4_spare_flags_and_removal :
    (∀ (cs : List ZpoolConfig) (i : Nat), i < (spareFold cs).length →
      ((spareFold cs).getD i default).is_spare
        = (cs.take (i + 1)).any (fun c => c.name == "spares")) ∧
    (∀ (lines : List RawLine) (cfgs : List ZpoolConfig) (c : ZpoolConfig),
      buildConfigs lines = Except.ok cfgs → c ∈ cfgs → c.name ≠ "spares") := by
  constructor
  · intro cs i hi
    rw [spareFold_eq] at hi ⊢
    rw [spareRec_getD_is_spare cs false i hi, Bool.false_or]
  · intro lines cfgs c h1 h2
    cases hm : (lines.drop 1).mapM mkZpoolConfig with
    | error e => simp only [buildConfigs, hm] at h1; cases h1
    | ok cs0 =>
      cases hh : (renameMap (indentMap (spareFold cs0))).head? with
      | none => simp only [buildConfigs, hm, hh] at h1; cases h1
      | some c0 =>
        simp only [buildConfigs, hm, hh, Except.ok.injEq] at h1
        subst h1
        obtain ⟨c', _, hname, rfl⟩ := finalMap_mem _ _ h2
        simpa using hname

/-- Witness for `c4_spare_flags_and_removal`: the flag equation at index 2 of
a concrete block with a `spares` marker at index 1, and the no-`spares`-name
fact for a concrete parsed config list. -/
theorem c4_spare_flags_and_removal_w :
    ((spareFold w4cs).getD 2 default).is_spare
        = (w4cs.take 3).any (fun c => c.name == "spares") ∧
    ((okConfigs (buildConfigs (configFindall c4Config))).getLastD default).name ≠ "spares" := by
  refine ⟨c4_spare_flags_and_removal.1 w4cs 2 (by decide), ?_⟩
  exact c4_spare_flags_and_removal.2 (configFindall c4Config)
    (okConfigs (buildConfigs (configFindall c4Config)))
    ((okConfigs (buildConfigs (configFindall c4Config))).getLastD default)
    (by rfl) (by decide)

/-- Claim C9: for every device node returned by the per-block pipeline whose
trailing comment begins with the literal prefix `was `, the node's final
name is the last `/`-delimited segment of the path that follows the prefix
(the stages after name normalization change neither `name` nor `comment`,
and the normalization itself writes exactly that segment). -/
theorem c9_was_comment_name (lines : List RawLine) (cfgs : List ZpoolConfig)
    (c : ZpoolConfig) (m : String)
    (h1 : buildConfigs lines = Except.ok cfgs) (h2 : c ∈ cfgs)
    (h3 : c.comment = some m) (h4 : m.data.take 4 = "was ".data) :
    c.name = String.mk ((splitOnCh '/' (m.data.drop 4)).getLastD []) := by
  cases hm : (lines.drop 1).mapM mkZpoolConfig with
  | error e => simp only [buildConfigs, hm] at h1; cases h1
  | ok cs0 =>
    cases hh : (renameMap (indentMap (spareFold cs0))).head? with
    | none => simp only [buildConfigs, hm, hh] at h1; cases h1
    | some c0 =>
      simp only [buildConfigs, hm, hh, Except.ok.injEq] at h1
      subst h1
      obtain ⟨c', hc', _, rfl⟩ := finalMap_mem _ _ h2
      rw [pathFold_eq] at hc'
      obtain ⟨c'', hc'', hn, hcm, _, _⟩ := pathRec_mem _ _ _ _ hc'
      have h3' : c''.comment = some m := by rw [← hcm]; simpa using h3
      have := renameMap_mem_name _ _ m hc'' h3' h4
      simpa [hn] using this

/-- Witness for `c9_was_comment_name`: the node parsed from a line with the
comment `was /dev/disk/by-path/foo-part1` ends up named `foo-part1`. -/
theorem c9_was_comment_name_w :
    ((okConfigs (buildConfigs c9Lines)).getLastD default).name = "foo-part1" := by
  have h := c9_was_comment_name c9Lines (okConfigs (buildConfigs c9Lines))
    ((okConfigs (buildConfigs c9Lines)).getLastD default) "was /dev/disk/by-path/foo-part1"
    (by rfl) (by decide) (by decide) (by decide)
  exact h.trans (by decide)

/-- Claim C5: for every corrected-amount token that is not a bare decimal
integer and whose final character is not a recognized SI magnitude letter,
`parse_si_unit` raises — either the `KeyError` of the `SI_UNITS` lookup, or
(evaluated first by CPython) the `ValueError` of `float(value[:-1])` — and
never silently defaults to some scale. -/
theorem c5_unknown_suffix_raises (value : String) (c : Char)
    (h1 : pyIsDecimal value = false) (h2 : value.data.getLast? = some c)
    (h3 : SI_UNITS.lookup c.toUpper = none) :
    ∃ e, parse_si_unit value = Except.error e := by
  cases hq : pyFloatOfString (String.mk value.data.dropLast) with
  | error e => exact ⟨e, by simp [parse_si_unit, h1, hq]⟩
  | ok q => exact ⟨"KeyError", by simp [parse_si_unit, h1, hq, h2, h3]⟩

/-- Witness for `c5_unknown_suffix_raises` at the token `1X`. -/
theorem c5_unknown_suffix_raises_w : ∃ e, parse_si_unit "1X" = Except.error e :=
  c5_unknown_suffix_raises "1X" 'X' (by decide) (by decide) (by decide)

/-! ### `scan_metrics` arity lemmas (claim C10) -/

theorem emitScan_error_of_flag (st : ZpoolStatus)
    (h : (st.scrub.isSome || st.resilvering.isSome) = true) :
    ∃ e, emitScan st = Except.error e := by
  cases hs : st.scrub with
  | some sc =>
    exact ⟨"TypeError: scan_metrics() missing 1 required positional argument",
      by simp [emitScan, hs, pyCall, scanMetricsParamCount, scanMetricsCallArgCount]⟩
  | none =>
    cases hr : st.resilvering with
    | some sc =>
      exact ⟨"TypeError: scan_metrics() missing 1 required positional argument",
        by simp [emitScan, hs, hr, pyCall, scanMetricsParamCount, scanMetricsCallArgCount]⟩
    | none => rw [hs, hr] at h; simp at h

theorem emitScan_ok_nil (st : ZpoolStatus) (gs : List String)
    (h : emitScan st = Except.ok gs) : gs = [] := by
  cases hs : st.scrub with
  | some sc =>
    simp [emitScan, hs, pyCall, scanMetricsParamCount, scanMetricsCallArgCount] at h
  | none =>
    cases hr : st.resilvering with
    | some sc =>
      simp [emitScan, hs, hr, pyCall, scanMetricsParamCount, scanMetricsCallArgCount] at h
    | none =>
      simp only [emitScan, hs, hr] at h
      injection h with h
      exact h.symm

theorem zpoolStatusEmit_err (sts : List ZpoolStatus) (st : ZpoolStatus) (hmem : st ∈ sts)
    (h : (st.scrub.isSome || st.resilvering.isSome) = true) :
    (zpoolStatusEmit sts).2.isSome = true := by
  induction sts with
  | nil => cases hmem
  | cons hd tl ih =>
    rcases List.mem_cons.mp hmem with rfl | hmem'
    · obtain ⟨e, he⟩ := emitScan_error_of_flag st h
      simp [zpoolStatusEmit, he]
    · cases he : emitScan hd with
      | error e => simp [zpoolStatusEmit, he]
      | ok gs => simpa [zpoolStatusEmit, he] using ih hmem'

theorem zpoolStatusEmit_families (sts : List ZpoolStatus) :
    ∀ g ∈ (zpoolStatusEmit sts).1, g = "status" ∨ g = "vdev_info" := by
  induction sts with
  | nil => intro g hg; simp [zpoolStatusEmit] at hg
  | cons st rest ih =>
    intro g hg
    cases he : emitScan st with
    | error e =>
      simp [zpoolStatusEmit, he] at hg
      exact Or.inl hg
    | ok gs =>
      have hgs := emitScan_ok_nil st gs he
      subst hgs
      simp only [zpoolStatusEmit, he, List.nil_append] at hg
      rcases List.mem_cons.mp hg with rfl | hg2
      · exact Or.inl rfl
      rcases List.mem_append.mp hg2 with hmap | htail
      · rcases List.mem_map.mp hmap with ⟨_, _, rfl⟩
        exact Or.inr rfl
      · exact ih g htail

/-- Claim C10: `scan_metrics` is declared with five required parameters but
`zpool_status` calls it with four arguments, so CPython raises `TypeError`
at the call; for every parsed status with `scrub` or `resilvering` set the
collector therefore ends with an uncaught error, and the scrub/resilver
duration, corrected-bytes and timestamp gauges are never produced — the only
metric families ever touched are the pool-status and vdev-info gauges. -/
theorem c10_scan_metrics_arity_mismatch :
    scanMetricsParamCount = 5 ∧ scanMetricsCallArgCount = 4 ∧
    (∀ (sts : List ZpoolStatus) (st : ZpoolStatus), st ∈ sts →
      (st.scrub.isSome || st.resilvering.isSome) = true →
      (zpoolStatusEmit sts).2.isSome = true) ∧
    (∀ (sts : List ZpoolStatus) (g : String), g ∈ (zpoolStatusEmit sts).1 →
      g = "status" ∨ g = "vdev_info") :=
  ⟨rfl, rfl, zpoolStatusEmit_err, zpoolStatusEmit_families⟩

/-- Witness for `c10_scan_metrics_arity_mismatch` at a status with a scrub
event. -/
theorem c10_scan_metrics_arity_mismatch_w :
    (zpoolStatusEmit [w10st]).2.isSome = true ∧
    ((zpoolStatusEmit [w10st]).1.headD "" = "status" ∨
      (zpoolStatusEmit [w10st]).1.headD "" = "vdev_info") :=
  ⟨c10_scan_metrics_arity_mismatch.2.2.1 [w10st] w10st (by decide) (by decide),
   c10_scan_metrics_arity_mismatch.2.2.2 [w10st] _ (by decide)⟩

/-! ### Exactness of the binary64 model on small integers (claim C6) -/

theorem natLog2F_spec : ∀ (fuel n : Nat), 0 < n → n ≤ 2 ^ fuel →
    2 ^ natLog2F fuel n ≤ n ∧ n < 2 ^ (natLog2F fuel n + 1) := by
  intro fuel
  induction fuel with
  | zero =>
    intro n h0 h1
    simp only [pow_zero] at h1
    simp only [natLog2F]
    omega
  | succ f ih =>
    intro n h0 h1
    by_cases hle : n ≤ 1
    · simp only [natLog2F, if_pos hle]
      omega
    · have h2 : 2 ≤ n := by omega
      have hfuel : n / 2 ≤ 2 ^ f := by
        rw [pow_succ] at h1
        omega
      obtain ⟨hlo, hhi⟩ := ih (n / 2) (by omega) hfuel
      simp only [natLog2F, if_neg hle]
      have hps1 : 2 ^ (natLog2F f (n / 2) + 1) = 2 * 2 ^ natLog2F f (n / 2) := by
        rw [pow_succ]; ring
      have hps2 : 2 ^ (natLog2F f (n / 2) + 1 + 1) = 2 * 2 ^ (natLog2F f (n / 2) + 1) := by
        rw [pow_succ _ (natLog2F f (n / 2) + 1)]; ring
      omega

theorem natLog2_spec (n : Nat) (h : 0 < n) :
    2 ^ natLog2 n ≤ n ∧ n < 2 ^ (natLog2 n + 1) :=
  natLog2F_spec n n h (Nat.le_of_lt (Nat.lt_two_pow n))

/-- Rounding an exact integer multiple of the denominator returns the
integer. -/
theorem roundHalfEven_mul (a : Int) (d : Nat) (hd : 0 < d) :
    Frac.roundHalfEven ⟨a * (d : Int), d⟩ = a := by
  have hdz : (d : Int) ≠ 0 := by exact_mod_cast hd.ne'
  have hdpos : (0 : Int) < (d : Int) := by exact_mod_cast hd
  simp only [Frac.roundHalfEven, Int.mul_fdiv_cancel a hdz, sub_self, mul_zero]
  rw [if_pos (by omega)]

theorem digit_not_ws (c : Char) (h : isDigitCh c = true) : pyWS c = false := by
  simp only [isDigitCh, Bool.and_eq_true, decide_eq_true_eq] at h
  simp only [pyWS]
  simp only [Bool.or_eq_false_iff, decide_eq_false_iff_not]
  omega

theorem dropWhile_ws_of_digits (l : List Char) (h : ∀ c ∈ l, isDigitCh c = true) :
    l.dropWhile pyWS = l := by
  cases l with
  | nil => rfl
  | cons c t =>
    rw [List.dropWhile_cons, digit_not_ws c (h c (List.mem_cons_self c t))]
    simp

theorem pyStripList_of_digits (l : List Char) (h : ∀ c ∈ l, isDigitCh c = true) :
    pyStripList l = l := by
  unfold pyStripList
  rw [dropWhile_ws_of_digits l h,
    dropWhile_ws_of_digits l.reverse (fun c hc => h c (List.mem_reverse.mp hc)),
    List.reverse_reverse]

theorem takeWhile_digits_of_all (l : List Char) (h : ∀ c ∈ l, isDigitCh c = true) :
    l.takeWhile isDigitCh = l := by
  induction l with
  | nil => rfl
  | cons c t ih =>
    rw [List.takeWhile_cons, h c (List.mem_cons_self c t)]
    simp only [ite_true]
    rw [ih (fun c' hc' => h c' (List.mem_cons_of_mem c hc'))]

/-- `float` on a bare decimal-digit string is the binary64 rounding of the
literal integer value. -/
theorem pyFloatOfString_decimal (s : String) (h : pyIsDecimal s = true) :
    pyFloatOfString s = Except.ok (toDouble ⟨(digitsVal s.data : Int), 1⟩) := by
  have h' : s.data ≠ [] ∧ ∀ c ∈ s.data, isDigitCh c = true := by
    simpa [pyIsDecimal, List.all_eq_true] using h
  obtain ⟨hne, hall⟩ := h'
  unfold pyFloatOfString
  rw [pyStripList_of_digits _ hall]
  cases hd : s.data with
  | nil => exact absurd hd hne
  | cons c t =>
    have hc : isDigitCh c = true := hall c (by rw [hd]; exact List.mem_cons_self c t)
    have hcplus : c ≠ '+' := fun hEq => absurd (hEq ▸ hc) (by decide)
    have hcminus : c ≠ '-' := fun hEq => absurd (hEq ▸ hc) (by decide)
    rw [← hd]
    rw [if_neg (by rw [hd]; simp [hcplus]), if_neg (by rw [hd]; simp [hcminus])]
    unfold parseFloatMag
    simp only [takeWhile_digits_of_all _ hall, List.drop_length, List.head?_nil,
      reduceCtorEq, hne]
    simp [parseExpPart]

/-- `log₂` of an integer fraction. -/
theorem log2floor_nat (n : Nat) (h : 0 < n) :
    Frac.log2floor ⟨(n : Int), 1⟩ = (natLog2 n : Int) := by
  obtain ⟨hlo, _⟩ := natLog2_spec n h
  have ha : ((n : Int)).toNat = n := by omega
  have hb : natLog2 1 = 0 := rfl
  have hcond : pow2LeFrac ((natLog2 n : Int)) ⟨(n : Int), 1⟩ = true := by
    unfold pow2LeFrac
    rw [if_pos (by omega : (0 : Int) ≤ (natLog2 n : Int))]
    have htn : ((natLog2 n : Int)).toNat = natLog2 n := by omega
    rw [htn]
    simp only [Nat.cast_one, mul_one, decide_eq_true_eq]
    exact_mod_cast hlo
  simp only [Frac.log2floor, ha, hb, Nat.cast_zero, sub_zero, hcond, if_true]

/-- Rounding any integer below `2 ^ 53` to binary64 and back to the nearest
integer is the identity. -/
theorem pyRound_toDouble_nat (n : Nat) (h : n < 2 ^ 53) :
    pyRound (toDouble ⟨(n : Int), 1⟩) = (n : Int) := by
  rcases Nat.eq_zero_or_pos n with rfl | hpos
  · rfl
  · have hnz : ((n : Int)) ≠ 0 := by exact_mod_cast hpos.ne'
    have hnn : ¬ ((n : Int) < 0) := by omega
    rw [toDouble, if_neg hnz, if_neg hnn]
    obtain ⟨hlo, hhi⟩ := natLog2_spec n hpos
    have hL52 : natLog2 n ≤ 52 := by
      by_contra hgt
      have h53 : (53 : Nat) ≤ natLog2 n := by omega
      have : (2 : Nat) ^ 53 ≤ 2 ^ natLog2 n := Nat.pow_le_pow_right (by omega) h53
      omega
    by_cases he : (0 : Int) ≤ (natLog2 n : Int) - 52
    · have hz : ((natLog2 n : Int) - 52).toNat = 0 := by omega
      have h1 : Frac.roundHalfEven ⟨(n : Int), 1⟩ = (n : Int) := by
        have := roundHalfEven_mul (n : Int) 1 (by omega)
        simpa using this
      simp only [toDoublePos, log2floor_nat n hpos, if_pos he, hz, pow_zero, mul_one, one_mul]
      rw [h1]
      exact h1
    · have hk : (-((natLog2 n : Int) - 52)).toNat = 52 - natLog2 n := by omega
      simp only [toDoublePos, log2floor_nat n hpos, if_neg he, hk]
      have h1 : Frac.roundHalfEven ⟨(n : Int) * (2 : Int) ^ (52 - natLog2 n), 1⟩
          = (n : Int) * (2 : Int) ^ (52 - natLog2 n) := by
        have := roundHalfEven_mul ((n : Int) * (2 : Int) ^ (52 - natLog2 n)) 1 (by omega)
        simpa using this
      rw [h1]
      have h2 : ((n : Int) * (2 : Int) ^ (52 - natLog2 n))
          = (n : Int) * ((2 ^ (52 - natLog2 n) : Nat) : Int) := by push_cast; ring
      simp only [pyRound]
      rw [h2]
      exact roundHalfEven_mul (n : Int) (2 ^ (52 - natLog2 n))
        (pow_pos (by omega : 0 < 2) _)

/-- Claim C6 (amended): `parse_si_unit` maps `0` to `0` and `1M` to
`1048576`, and every bare decimal integer string whose value is below
`2 ^ 53` parses to its literal integer value with no scaling; for larger
integers `float` rounds to binary64 first, so the literal value is not
always returned (see `c6_counterexample`). -/
theorem c6_si_unit_decimal_values :
    parse_si_unit "0" = Except.ok 0 ∧ parse_si_unit "1M" = Except.ok 1048576 ∧
    (∀ (s : String), pyIsDecimal s = true → digitsVal s.data < 2 ^ 53 →
      parse_si_unit s = Except.ok ((digitsVal s.data : Int))) := by
  refine ⟨rfl, rfl, ?_⟩
  intro s h1 h2
  simp only [parse_si_unit, h1, if_true, pyFloatOfString_decimal s h1]
  rw [pyRound_toDouble_nat _ h2]

/-- Witness for the universal part of `c6_si_unit_decimal_values`. -/
theorem c6_si_unit_decimal_values_w : parse_si_unit "42" = Except.ok (42 : Int) :=
  c6_si_unit_decimal_values.2.2 "42" (by decide) (by decide)

/-- Claim C6, counterexample.  The claim states that every bare decimal
integer string, of any length, parses to its literal integer value.  The
19-character string for `2 ^ 53 + 1` does not: `float` rounds it to the
nearest binary64 value `2 ^ 53`, so `parse_si_unit` returns
`9007199254740992`, not the literal `9007199254740993`. -/
theorem c6_counterexample :
    parse_si_unit "9007199254740993" = Except.ok 9007199254740992 ∧
    (9007199254740992 : Int) ≠ 9007199254740993 := by
  exact ⟨rfl, by decide⟩

/-- Claim C7: `parse_time_duration` parses the colon-delimited clock string
`6:57:56` (read right-to-left as seconds, minutes, hours) and the compact
unit-suffixed string `6h57m56s` (left-to-right accumulation) to the same
duration of exactly 25076 seconds. -/
theorem c7_duration_fixture_pair :
    parse_time_duration "6:57:56" = Except.ok 25076 ∧
    parse_time_duration "6h57m56s" = Except.ok 25076 := by
  exact ⟨rfl, rfl⟩

/-- Claim C8 (the code-side evaluation).  The claim says every suffix among
`s`, `m`, `h`, `d`, `w`, `y` is accepted, `y` parsing to a duration of that
many years.  The first five work, but `TIME_UNITS` maps `y` to the keyword
`years`, which `datetime.timedelta` does not accept, so `1y` raises
`TypeError` instead of parsing. -/
theorem c8_years_suffix_raises :
    parse_time_duration "1y" =
      Except.error "TypeError: invalid keyword argument for timedelta" ∧
    parse_time_duration "1s" = Except.ok 1 ∧
    parse_time_duration "2m" = Except.ok 120 ∧
    parse_time_duration "2h" = Except.ok 7200 ∧
    parse_time_duration "2d" = Except.ok 172800 ∧
    parse_time_duration "2w" = Except.ok 1209600 := by
  exact ⟨rfl, rfl, rfl, rfl, rfl, rfl⟩

end ZfsZpool
